import Mathlib

/-!
Shallow embedding of the render-job pipeline of the react-video-editor
repository: the Express job server (job registry, status / download /
cancel / save endpoints, `startRenderProcess`), the frame-extraction
duration and batch-size logic (`renderer/extract.js`), the encoder plan
and process runner (`renderer/encode.js`), and the audio mixing graph
builder (`renderer/audio.js`).

JavaScript numbers are modelled as rationals (`ℚ`); `Math.floor`,
`Math.ceil` and `Math.round` are made explicit; JavaScript `x || d`
on numbers (which treats `0` as missing) is `jsOrQ`.
-/

namespace RVE

/-- `Math.floor` on a rational, as an integer. -/
def jsFloor (q : ℚ) : ℤ := ⌊q⌋

/-- `Math.ceil` on a rational, as an integer. -/
def jsCeil (q : ℚ) : ℤ := ⌈q⌉

/-- `Math.round` on a non-negative rational: round half up. -/
def jsRound (q : ℚ) : ℤ := ⌊q + 1/2⌋

/-- JavaScript `a || d` where `a` is a possibly-missing number:
`undefined`, `null` and `0` are falsy, so the default applies for them. -/
def jsOrQ (a : Option ℚ) (d : ℚ) : ℚ :=
  match a with
  | none => d
  | some v => if v = 0 then d else v

/-- JavaScript `a || d` for a possibly-missing string: `undefined` and the
empty string are falsy. -/
def jsOrS (a : Option String) (d : String) : String :=
  match a with
  | none => d
  | some v => if v = "" then d else v

/-- `Math.max(...list)` for a non-empty list (the code only calls it under a
non-emptiness guard; the `[]` case is unreachable there). -/
def jsMaxList : List ℚ → ℚ
  | [] => 0
  | x :: xs => xs.foldl max x

/-- Whether `pre` is a prefix of `l`, as a boolean on character lists. -/
def charsPrefix : List Char → List Char → Bool
  | [], _ => true
  | _ :: _, [] => false
  | a :: as, b :: bs => a = b && charsPrefix as bs

/-- Whether `sub` occurs contiguously inside `l`. -/
def charsInfix (sub : List Char) : List Char → Bool
  | [] => charsPrefix sub []
  | b :: bs => charsPrefix sub (b :: bs) || charsInfix sub bs

/-- JavaScript `s.includes(sub)`. -/
def jsIncludes (s sub : String) : Bool := charsInfix sub.data s.data

/-- JavaScript `s.slice(-n)`: the last `min n (length s)` characters. -/
def jsSliceLast (s : String) (n : ℕ) : String :=
  ⟨s.data.drop (s.data.length - n)⟩

/-! ## Composition data model

A track item of `design.trackItemsMap`, with the fields the render server
reads: `type`, `details.src`, `details.volume`, `display.from`,
`display.to`, `duration`, `trim.from`, `trim.to`, `playbackRate`, `name`.
Absent fields are `none`. -/

structure TrackItem where
  id : String := ""
  type : String := ""
  src : Option String := none
  displayFrom : Option ℚ := none
  displayTo : Option ℚ := none
  duration : Option ℚ := none
  trimFrom : Option ℚ := none
  trimTo : Option ℚ := none
  volume : Option ℚ := none
  playbackRate : Option ℚ := none
  name : Option String := none
  deriving Repr, DecidableEq

/-- The composition (`design`) fields the render server reads.
`trackItems` lists the values of `design.trackItemsMap` in the order of
`design.trackItemIds`. -/
structure Design where
  duration : ℚ := 0
  timelineDuration : Option ℚ := none
  trackItems : List TrackItem := []
  deriving Repr, DecidableEq

/-! ## Frame extraction (`server/renderer/extract.js`, `extractFrames`)

Timeline-duration resolution and total frame count (lines 41–62), and
batch-size selection (lines 102–123). -/

/-- `Math.max(...Object.values(design.trackItemsMap).map(item => item.display?.to || 0))`. -/
def maxEndTime (items : List TrackItem) : ℚ :=
  jsMaxList (items.map (fun item => jsOrQ item.displayTo 0))

/-- The `else if` branch of `extractFrames`: when `design.trackItemsMap`
is non-empty and the maximum item end time is positive and differs from
`design.duration`, that maximum replaces the initial `design.duration`. -/
def fallbackTimelineDuration (design : Design) : ℚ :=
  if design.trackItems ≠ [] then
    (if maxEndTime design.trackItems > 0 ∧ maxEndTime design.trackItems ≠ design.duration
     then maxEndTime design.trackItems else design.duration)
  else design.duration

/-- The `timelineDuration` variable of `extractFrames`: starts as
`design.duration`; replaced by `design.timelineDuration` when that is
truthy and positive; otherwise falls to the track-item branch. -/
def resolveTimelineDuration (design : Design) : ℚ :=
  match design.timelineDuration with
  | some td =>
    if td ≠ 0 ∧ td > 0 then td else fallbackTimelineDuration design
  | none => fallbackTimelineDuration design

/-- `durationInFrames = Math.ceil((timelineDuration / 1000) * fps)`; this is
the `totalFrames` of the extraction result. -/
def durationInFrames (design : Design) (fps : ℚ) : ℤ :=
  jsCeil (resolveTimelineDuration design / 1000 * fps)

/-- Batch-size selection of `extractFrames` (on the validated render
dimensions): nested branches keyed on `isMemoryConstrained` and on
`width >= 3840 || height >= 2160` (4K) then `width >= 1920 || height >= 1080`
(1080p). The initial `let batchSize = 30` is overwritten on every path. -/
def batchSize (isMemoryConstrained : Bool) (width height : ℚ) : ℕ :=
  if isMemoryConstrained then
    if width ≥ 3840 ∨ height ≥ 2160 then 10
    else if width ≥ 1920 ∨ height ≥ 1080 then 15
    else 20
  else
    if width ≥ 3840 ∨ height ≥ 2160 then 20
    else if width ≥ 1920 ∨ height ≥ 1080 then 30
    else 60

/-! ## Encoding plan (`server/renderer/encode.js`, `generateFFmpegCommand`) -/

/-- `const isHighRes = width >= 3840 || height >= 2160 || quality.includes('4K')`. -/
def isHighRes (width height : ℚ) (quality : String) : Bool :=
  decide (width ≥ 3840) || decide (height ≥ 2160) || jsIncludes quality "4K"

/-- `const useTwoPass = isHighRes || systemInfo.isMemoryConstrained`. -/
def useTwoPass (width height : ℚ) (quality : String) (isMemoryConstrained : Bool) : Bool :=
  isHighRes width height quality || isMemoryConstrained

/-! ## Process runner (`server/renderer/encode.js`, `runFFmpegProcess` /
`encodeVideo`)

`runFFmpegProcess` resolves on exit code 0 and otherwise rejects with
`FFmpeg process exited with code {code}. Error: {errorOutput.slice(-500)}`.
`encodeVideo` then throws `Output file has zero size, encoding failed`
when the produced file has size 0. We model one external process run by
its exit code and accumulated stderr text. -/

/-- One external encoder process run: its exit code and the accumulated
diagnostic (stderr) text. -/
structure ProcessRun where
  exitCode : ℤ
  errorOutput : String
  deriving Repr, DecidableEq

/-- The rejection message of `runFFmpegProcess` for a non-zero exit code. -/
def ffmpegFailureMessage (run : ProcessRun) : String :=
  "FFmpeg process exited with code " ++ toString run.exitCode ++ ". Error: "
    ++ jsSliceLast run.errorOutput 500

/-- `runFFmpegProcess` outcome: `ok` on exit code 0, otherwise the error
carrying the last 500 characters of the diagnostic output. -/
def runFFmpegProcess (run : ProcessRun) : Except String Unit :=
  if run.exitCode = 0 then .ok () else .error (ffmpegFailureMessage run)

/-- `encodeVideo` outcome after the command is built: run the first pass
when two-pass, then the main pass, then fail when the output file has size
0, else succeed with the file size. -/
def encodeVideoOutcome (firstPass : Option ProcessRun) (mainPass : ProcessRun)
    (outputSize : ℕ) : Except String ℕ :=
  match firstPass with
  | some run =>
    match runFFmpegProcess run with
    | .error e => .error e
    | .ok _ =>
      match runFFmpegProcess mainPass with
      | .error e => .error e
      | .ok _ =>
        if outputSize = 0 then .error "Output file has zero size, encoding failed"
        else .ok outputSize
  | none =>
    match runFFmpegProcess mainPass with
    | .error e => .error e
    | .ok _ =>
      if outputSize = 0 then .error "Output file has zero size, encoding failed"
      else .ok outputSize

/-! ## Audio mixing (`server/renderer/audio.js`) -/

/-- The audio-track descriptor pushed by `extractAudioTracks`: the object
literal has exactly these keys — in particular it has **no** `display`
key, which `generateAudioMixing` later tries to read. -/
structure AudioTrackDesc where
  id : String
  src : String
  name : String
  startTime : ℚ
  duration : ℚ
  trimStart : ℚ
  trimEnd : ℚ
  volume : ℚ
  playbackRate : ℚ
  deriving Repr, DecidableEq

/-- `generateAudioMixing` reads `track.display?.from` / `track.display?.to`;
the descriptor has no `display` field, so both reads yield `undefined`. -/
def AudioTrackDesc.displayFrom (_ : AudioTrackDesc) : Option ℚ := none

/-- See `AudioTrackDesc.displayFrom`. -/
def AudioTrackDesc.displayTo (_ : AudioTrackDesc) : Option ℚ := none

/-- The condition under which `extractAudioTracks` keeps an item:
`item.type === 'audio' && item.details && item.details.src` (a present,
non-empty source string). -/
def isAudioItem (item : TrackItem) : Bool :=
  item.type = "audio" &&
    (match item.src with
     | some s => s ≠ ""
     | none => false)

/-- The descriptor `extractAudioTracks` builds for one kept item. -/
def audioDescOf (count : ℕ) (item : TrackItem) : AudioTrackDesc :=
  { id := item.id
    src := item.src.getD ""
    name := jsOrS item.name ("Audio " ++ toString (count + 1))
    startTime := jsOrQ item.displayFrom 0 / 1000
    duration := jsOrQ item.displayTo (jsOrQ item.duration 0) / 1000
                  - jsOrQ item.displayFrom 0 / 1000
    trimStart := jsOrQ item.trimFrom 0 / 1000
    trimEnd := jsOrQ item.trimTo (jsOrQ item.duration 0) / 1000
    volume := jsOrQ item.volume 100 / 100
    playbackRate := jsOrQ item.playbackRate 1 }

/-- `extractAudioTracks(design)`: scans `design.trackItemIds` in order and
keeps a descriptor per audio item with a resolvable source. -/
def extractAudioTracks (design : Design) : List AudioTrackDesc :=
  (design.trackItems.filter isAudioItem).enum.map
    (fun p => audioDescOf p.1 p.2)

/-- One per-track filter chain of the generated `filter_complex`:
`[i:a]adelay=D|D,atempo=R,volume=V,atrim=end=T(,apad=whole_dur=P)[label]`.
`apadWholeDur` is present only on the single-track chain. -/
structure AudioChain where
  inputIndex : ℕ
  adelayMs : ℤ
  atempo : ℚ
  volume : ℚ
  atrimEnd : ℚ
  apadWholeDur : Option ℚ
  outLabel : String
  deriving Repr, DecidableEq

/-- The `amix=inputs=N:duration=longest:dropout_transition=0,apad=whole_dur=P[audio]`
node appended for two or more tracks. -/
structure AmixNode where
  inputs : ℕ
  apadWholeDur : ℚ
  deriving Repr, DecidableEq

/-- The structured content of the `{inputArgs, filterComplex}` value built
by `generateAudioMixing`. -/
structure AudioMix where
  inputPaths : List String
  chains : List AudioChain
  mix : Option AmixNode
  deriving Repr, DecidableEq

/-- The `trackDuration` computed inside `generateAudioMixing`:
`((track.display?.to || totalDuration) - (track.display?.from || track.startTime * 1000)) / 1000`.
Both `display` reads are `undefined` on the descriptor (see
`AudioTrackDesc.displayFrom`), so the end time is always `totalDuration`. -/
def chainTrackDuration (track : AudioTrackDesc) (totalDuration : ℚ) : ℚ :=
  (jsOrQ track.displayTo totalDuration
    - jsOrQ track.displayFrom (track.startTime * 1000)) / 1000

/-- The `trackStartTime` computed inside `generateAudioMixing`. -/
def chainTrackStart (track : AudioTrackDesc) : ℚ :=
  jsOrQ track.displayFrom (track.startTime * 1000)

/-- The local path `audio_{i}_{track.id}.mp3` the i-th track is downloaded to. -/
def audioLocalPath (i : ℕ) (track : AudioTrackDesc) : String :=
  "audio_" ++ toString i ++ "_" ++ track.id ++ ".mp3"

/-- `generateAudioMixing(audioFiles, totalDuration, fps)`: one padded chain
for a single track; per-track labelled chains plus an `amix` node with
`inputs = track count` for two or more. -/
def generateAudioMixing (tracks : List AudioTrackDesc) (totalDuration : ℚ) : AudioMix :=
  let inputPaths := tracks.enum.map (fun p => audioLocalPath p.1 p.2)
  if h : tracks.length = 1 then
    let track := tracks.head (by cases tracks <;> simp_all)
    { inputPaths := inputPaths
      chains := [{ inputIndex := 1
                   adelayMs := jsRound (chainTrackStart track)
                   atempo := track.playbackRate
                   volume := track.volume
                   atrimEnd := chainTrackDuration track totalDuration
                   apadWholeDur := some (totalDuration / 1000)
                   outLabel := "audio" }]
      mix := none }
  else
    { inputPaths := inputPaths
      chains := tracks.enum.map (fun p =>
        { inputIndex := p.1 + 1
          adelayMs := jsRound (chainTrackStart p.2)
          atempo := p.2.playbackRate
          volume := p.2.volume
          atrimEnd := chainTrackDuration p.2 totalDuration
          apadWholeDur := none
          outLabel := "a" ++ toString p.1 })
      mix := some { inputs := tracks.length, apadWholeDur := totalDuration / 1000 } }

/-- The audio plan returned by `processAudioTracks`: the bare silent
`anullsrc` input array when no audio track is found, otherwise the
`{inputArgs, filterComplex}` mixing value. -/
inductive AudioPlan where
  | silent
  | mixed (mix : AudioMix)
  deriving Repr, DecidableEq

/-- `processAudioTracks({design, ..., totalDuration})` (download side
effects abstracted away; the downloads keep the track order). -/
def processAudioTracks (design : Design) (totalDuration : ℚ) : AudioPlan :=
  let audioTracks := extractAudioTracks design
  if audioTracks.isEmpty then .silent
  else .mixed (generateAudioMixing audioTracks totalDuration)

/-! ## Job lifecycle server (`server/index.js`, the Express app)

The job registry is `activeJobs : Map<jobId, job>`; jobs carry
`status ∈ {initialized, rendering, completed, cancelled, error}`,
`progress`, `phase`, optional `outputPath` / `error`. Each endpoint or
pipeline step is a function from the registry to the new registry, an
HTTP response (endpoints only) and the list of Socket.IO events it emits
on the `job-progress-{jobId}` channel. -/

/-- The `status` strings stored in `activeJobs` entries. -/
inductive JobStatus where
  | initialized
  | rendering
  | completed
  | cancelled
  | errored
  deriving Repr, DecidableEq

/-- The string stored in the `status` field. -/
def JobStatus.str : JobStatus → String
  | .initialized => "initialized"
  | .rendering => "rendering"
  | .completed => "completed"
  | .cancelled => "cancelled"
  | .errored => "error"

/-- One `activeJobs` entry (the fields the four endpoints read or write). -/
structure RenderJob where
  status : JobStatus
  progress : ℤ
  phase : String := "initializing"
  outputPath : Option String := none
  errMsg : Option String := none
  deriving Repr, DecidableEq

/-- The `activeJobs` map, as an association list keyed by job id. -/
def Registry := List (String × RenderJob)

instance : DecidableEq Registry := inferInstanceAs (DecidableEq (List (String × RenderJob)))

/-- `activeJobs.get(jobId)` (`activeJobs.has` is `≠ none`). -/
def getJob (reg : Registry) (jobId : String) : Option RenderJob :=
  (List.lookup jobId reg : Option RenderJob)

/-- In-place mutation of the entry for `jobId` (the code mutates the object
returned by `activeJobs.get`, so an absent id changes nothing here; the
code itself would throw in that case and never exercises it). -/
def setJob : Registry → String → RenderJob → Registry
  | [], _, _ => []
  | (a, b) :: tl, jobId, job =>
    if a = jobId then (a, job) :: setJob tl jobId job
    else (a, b) :: setJob tl jobId job

/-- A message pushed on channel `job-progress-{jobId}`. -/
structure EmittedEvent where
  jobId : String
  progress : Option ℤ := none
  phase : Option String := none
  status : Option String := none
  errMsg : Option String := none
  outputPath : Option String := none
  deriving Repr, DecidableEq

/-- An HTTP response: its status code and, when the body is an error body,
the `error` message, plus the optional `status` field some bodies carry. -/
structure HttpResponse where
  code : ℕ
  errorField : Option String := none
  statusField : Option String := none
  deriving Repr, DecidableEq

/-- Result of one endpoint call: new registry, response, emitted events. -/
structure EndpointResult where
  registry : Registry
  response : HttpResponse
  events : List EmittedEvent

/-- `GET /api/render/status/:jobId`: 404 on an unknown id, else a 200 view
of the record. -/
def statusEndpoint (reg : Registry) (jobId : String) : EndpointResult :=
  match getJob reg jobId with
  | none => ⟨reg, { code := 404, errorField := some "Job not found" }, []⟩
  | some job => ⟨reg, { code := 200, statusField := some job.status.str }, []⟩

/-- `GET /api/render/download/:jobId`: 404 on an unknown id; 400 unless the
job is completed with an output path; else the 200 file response. -/
def downloadEndpoint (reg : Registry) (jobId : String) : EndpointResult :=
  match getJob reg jobId with
  | none => ⟨reg, { code := 404, errorField := some "Job not found" }, []⟩
  | some job =>
    if job.status = .completed ∧ job.outputPath ≠ none then
      ⟨reg, { code := 200 }, []⟩
    else
      ⟨reg, { code := 400,
              errorField := some "Render not completed or output not available" }, []⟩

/-- `POST /api/render/cancel/:jobId`: 404 on an unknown id; when the job is
`rendering` or `initialized`, set status `cancelled`, reset progress to 0,
emit a cancellation event and answer 200; otherwise answer 400
`Cannot cancel job` with the current status, changing nothing. -/
def cancelEndpoint (reg : Registry) (jobId : String) : EndpointResult :=
  match getJob reg jobId with
  | none => ⟨reg, { code := 404, errorField := some "Job not found" }, []⟩
  | some job =>
    if job.status = .rendering ∨ job.status = .initialized then
      ⟨setJob reg jobId { job with status := .cancelled, progress := 0 },
       { code := 200, statusField := some "cancelled" },
       [{ jobId := jobId, progress := some 0, phase := some "cancelled",
          status := some "cancelled" }]⟩
    else
      ⟨reg, { code := 400, errorField := some "Cannot cancel job",
              statusField := some job.status.str }, []⟩

/-- `POST /api/render/save/:jobId` up to its filesystem effects:
400 when the request body has no output path; 404 on an unknown id;
400 unless completed; 404 when the artifact file is missing
(`outputFileExists` abstracts `fs.existsSync(job.outputPath)`); else 200.
The registry eviction happens on a 5-second timer, not synchronously. -/
def saveEndpoint (reg : Registry) (jobId : String) (outputPath : Option String)
    (outputFileExists : Bool) : EndpointResult :=
  match outputPath with
  | none => ⟨reg, { code := 400, errorField := some "Output path is required" }, []⟩
  | some _ =>
    match getJob reg jobId with
    | none => ⟨reg, { code := 404, errorField := some "Job not found" }, []⟩
    | some job =>
      if job.status ≠ .completed then
        ⟨reg, { code := 400, errorField := some "Job is not completed yet",
                statusField := some job.status.str }, []⟩
      else if job.outputPath = none ∨ ¬outputFileExists then
        ⟨reg, { code := 404, errorField := some "Output video file not found" }, []⟩
      else
        ⟨reg, { code := 200 }, []⟩

/-- The `updateProgress` closure of `startRenderProcess`: when the job is
still in the registry, overwrite its progress and phase and emit a
progress event — with **no** look at its status. -/
def updateProgressStep (reg : Registry) (jobId : String) (progress : ℤ)
    (phase : String) : Registry × List EmittedEvent :=
  match getJob reg jobId with
  | none => (reg, [])
  | some job =>
    (setJob reg jobId { job with progress := progress, phase := phase },
     [{ jobId := jobId, progress := some progress, phase := some phase }])

/-- Step 3 of `startRenderProcess`: on pipeline success, unconditionally set
status `completed`, progress 100, the output path, and emit the final event. -/
def completeStep (reg : Registry) (jobId : String) (outputPath : String) :
    Registry × List EmittedEvent :=
  match getJob reg jobId with
  | none => (reg, [])
  | some job =>
    let job' : RenderJob :=
      { job with
        status := .completed
        progress := 100
        outputPath := some outputPath
        phase := "completed" }
    (setJob reg jobId job',
     [{ jobId := jobId, progress := some 100, phase := some "completed",
        outputPath := some outputPath }])

/-! ## The overall-progress values of one successful run

`startRenderProcess` emits, in order: `updateProgress(0, 'extraction')`;
for every renderer `onFrameUpdate(frame)` the value
`Math.floor((frame / durationInFrames * 100) * 0.5)`;
`updateProgress(50, 'encoding')`; for every encoder progress value `e`
(produced by `runFFmpegProcess` from the parsed `Duration:` value `d` and
each parsed `time=` value `t` as
`Math.min(Math.round(start + t/d * (end - start)), end)`, with sub-ranges
`[0,45]` and `[45,100]` for the two passes or `[0,100]` for a single pass)
the value `50 + Math.floor(e * 0.5)`; and finally `100`. -/

/-- One extraction progress value:
`Math.floor(((frame / totalFrames) * 100) * 0.5)`. -/
def extractionEvent (totalFrames frame : ℕ) : ℤ :=
  jsFloor ((frame : ℚ) / (totalFrames : ℚ) * 100 * (1/2))

/-- One encoder progress value inside `runFFmpegProcess`, for parsed total
duration `d` (seconds) and parsed elapsed time `t` (seconds). -/
def passEvent (pStart pEnd : ℤ) (d t : ℕ) : ℤ :=
  min (jsRound ((pStart : ℚ) + (t : ℚ) / (d : ℚ) * ((pEnd : ℚ) - (pStart : ℚ)))) pEnd

/-- The progress values one `runFFmpegProcess` call reports: none while no
`Duration:` header was parsed (`duration > 0` guard), else one per parsed
`time=` value. -/
def passEvents (pStart pEnd : ℤ) (d : ℕ) (ts : List ℕ) : List ℤ :=
  if d = 0 then [] else ts.map (passEvent pStart pEnd d)

/-- The encoder progress values of `encodeVideo`: two passes over sub-ranges
`[0,45]` and `[45,100]`, or one pass over `[0,100]`. -/
def encodingEvents (twoPass : Bool) (dFirst : ℕ) (tsFirst : List ℕ)
    (dMain : ℕ) (tsMain : List ℕ) : List ℤ :=
  if twoPass then passEvents 0 45 dFirst tsFirst ++ passEvents 45 100 dMain tsMain
  else passEvents 0 100 dMain tsMain

/-- The mapping `startRenderProcess` applies to an encoder progress value:
`50 + Math.floor(e * 0.5)`. -/
def encodingMapped (e : ℤ) : ℤ :=
  50 + jsFloor ((e : ℚ) * (1/2))

/-- The sequence of overall progress values emitted (and stored in
`job.progress`, hence observable by status reads) during one successful,
uncancelled run. -/
def renderProgressTrace (totalFrames : ℕ) (frames : List ℕ) (twoPass : Bool)
    (dFirst : ℕ) (tsFirst : List ℕ) (dMain : ℕ) (tsMain : List ℕ) : List ℤ :=
  0 :: (frames.map (extractionEvent totalFrames)
    ++ 50 :: ((encodingEvents twoPass dFirst tsFirst dMain tsMain).map encodingMapped
      ++ [100]))

/-! ## Spec-as-written reference definitions

Each of the following follows the wording of one claim of the spec, to be
compared with the definition translated from the source. -/

/-- Spec wording for the timeline-duration precedence (claim C3): an
explicitly supplied timeline duration overrides everything; otherwise the
maximum display end-time across all composition items; otherwise the
composition-level default duration. -/
def specResolveDuration (design : Design) : ℚ :=
  match design.timelineDuration with
  | some td => td
  | none =>
    match design.trackItems with
    | [] => design.duration
    | items => jsMaxList (items.map (fun item => jsOrQ item.displayTo 0))

/-- Spec wording for the claimed frame count (claim C3). -/
def specDurationInFrames (design : Design) (fps : ℚ) : ℤ :=
  jsCeil (specResolveDuration design / 1000 * fps)

/-- The fallback of the amended duration precedence (claim C3 amended):
when the composition has items and their maximum display end-time is
positive, that maximum; otherwise the composition-level default duration. -/
def amendedFallbackDuration (design : Design) : ℚ :=
  if design.trackItems = [] then design.duration
  else if maxEndTime design.trackItems > 0 then maxEndTime design.trackItems
  else design.duration

/-- The amended duration precedence (claim C3 amended): an explicitly
supplied **positive** timeline duration overrides everything; otherwise
`amendedFallbackDuration`. -/
def amendedResolveDuration (design : Design) : ℚ :=
  match design.timelineDuration with
  | some td => if td > 0 then td else amendedFallbackDuration design
  | none => amendedFallbackDuration design

/-- Resolution classes of the batch-size lookup table. -/
inductive ResClass where
  | res4K
  | res1080
  | other
  deriving Repr, DecidableEq

/-- Spec wording of the resolution class (claim C4): 4K means resolution
≥ 3840×2160 (both dimensions); 1080p likewise reads ≥ 1920×1080. -/
def specResClass (width height : ℚ) : ResClass :=
  if width ≥ 3840 ∧ height ≥ 2160 then .res4K
  else if width ≥ 1920 ∧ height ≥ 1080 then .res1080
  else .other

/-- The batch-size lookup table keyed by (`isMemoryConstrained`,
resolution class), shared by claim C4 and its amendment. -/
def batchTable (isMemoryConstrained : Bool) : ResClass → ℕ
  | .res4K => if isMemoryConstrained then 10 else 20
  | .res1080 => if isMemoryConstrained then 15 else 30
  | .other => if isMemoryConstrained then 20 else 60

/-- The resolution class the code actually uses (amended claim C4): each
dimension triggers its class on its own
(`width >= 3840 || height >= 2160`, then `width >= 1920 || height >= 1080`). -/
def codeResClass (width height : ℚ) : ResClass :=
  if width ≥ 3840 ∨ height ≥ 2160 then .res4K
  else if width ≥ 1920 ∨ height ≥ 1080 then .res1080
  else .other

/-- Spec wording of the two-pass rule (claim C5): resolution high
(≥ 3840×2160) or memory constrained. -/
def specTwoPass (width height : ℚ) (isMemoryConstrained : Bool) : Prop :=
  (width ≥ 3840 ∧ height ≥ 2160) ∨ isMemoryConstrained = true

/-- Spec wording of the single-track trim duration (claim C7): display end
minus display start, falling back to the total duration only when the
display window is absent (here in milliseconds, converted to seconds). -/
def specTrimDuration (item : TrackItem) (totalDuration : ℚ) : ℚ :=
  match item.displayFrom, item.displayTo with
  | some dFrom, some dTo => (dTo - dFrom) / 1000
  | _, _ => totalDuration / 1000

/-! ## Concrete fixtures -/

/-- A completed job with its artifact, for the cancel-on-terminal claims. -/
def jobCompleted : RenderJob :=
  { status := .completed, progress := 100, phase := "completed",
    outputPath := some "output-full-hd.mp4" }

/-- A registry holding only the completed job `job-1`. -/
def regCompleted : Registry := [("job-1", jobCompleted)]

/-- A mid-extraction job, for the cancellation-trace claims. -/
def jobRendering : RenderJob :=
  { status := .rendering, progress := 30, phase := "extraction" }

/-- A registry holding only the in-progress job `job-2`. -/
def regRendering : Registry := [("job-2", jobRendering)]

/-- A composition whose only item has display end time 0 while the
composition-level duration is 5000 ms. -/
def designZeroEnd : Design :=
  { duration := 5000, timelineDuration := none,
    trackItems := [{ id := "t1", type := "text", displayTo := some 0 }] }

/-- The mix node of an audio plan, when one is present. -/
def AudioPlan.mixNode : AudioPlan → Option AmixNode
  | .silent => none
  | .mixed m => m.mix

/-- The per-track filter chains of an audio plan. -/
def AudioPlan.chainList : AudioPlan → List AudioChain
  | .silent => []
  | .mixed m => m.chains

/-- An audio item with a display window 1000–3000 ms, for the trim claim. -/
def audioItemWindowed : TrackItem :=
  { id := "a1", type := "audio", src := some "http://media.local/song.mp3",
    displayFrom := some 1000, displayTo := some 3000,
    duration := some 120000, volume := some 80 }

/-- A composition containing only `audioItemWindowed`. -/
def designOneAudio : Design :=
  { duration := 10000, timelineDuration := none,
    trackItems := [audioItemWindowed] }

/-- A composition with two audio items and one text item. -/
def designTwoAudio : Design :=
  { duration := 8000, timelineDuration := none,
    trackItems :=
      [{ id := "a1", type := "audio", src := some "http://media.local/a.mp3",
         displayFrom := some 0, displayTo := some 4000 },
       { id := "t1", type := "text", displayTo := some 8000 },
       { id := "a2", type := "audio", src := some "http://media.local/b.mp3",
         displayFrom := some 2000, displayTo := some 8000 }] }

/-! ## Claims about the job endpoints -/

/-- Claim C1, as stated, is false: on the already-terminal (completed) job
`job-1`, `cancel` does not answer with a no-op success — it answers 400
with an `error` body (`Cannot cancel job`). -/
theorem cancel_terminal_claim_false :
    (cancelEndpoint regCompleted "job-1").response.code = 400 ∧
    (cancelEndpoint regCompleted "job-1").response.errorField = some "Cannot cancel job" := by
  decide

/-- Claim C1 (amended): `cancel` on a job in a terminal status (completed,
cancelled, or error) leaves the registry — hence the status and
progress of the job — unchanged, emits no event, and returns a 400 error
response `Cannot cancel job` carrying the current status. -/
theorem cancel_terminal_rejected (reg : Registry) (jobId : String) (job : RenderJob)
    (hget : getJob reg jobId = some job)
    (hterm : job.status = .completed ∨ job.status = .cancelled ∨ job.status = .errored) :
    cancelEndpoint reg jobId =
      ⟨reg, { code := 400, errorField := some "Cannot cancel job",
              statusField := some job.status.str }, []⟩ := by
  have hnr : ¬(job.status = .rendering ∨ job.status = .initialized) := by
    rcases hterm with h | h | h <;> simp [h]
  simp [cancelEndpoint, hget, hnr]

/-- Witness for `cancel_terminal_rejected` on the completed job `job-1`. -/
theorem cancel_terminal_rejected_witness :
    cancelEndpoint regCompleted "job-1" =
      ⟨regCompleted, { code := 400, errorField := some "Cannot cancel job",
                       statusField := some "completed" }, []⟩ :=
  cancel_terminal_rejected regCompleted "job-1" jobCompleted (by decide) (Or.inl rfl)

/-- Claim C10: for a job id absent from the registry, the status, download,
cancel and save endpoints each return the 404 `Job not found` error body,
emit nothing, and leave the registry untouched (no entry created or
modified); none of them throws — each is a total function here. -/
theorem unknown_job_not_found (reg : Registry) (jobId : String) (dest : String)
    (outputFileExists : Bool) (habsent : getJob reg jobId = none) :
    statusEndpoint reg jobId =
      ⟨reg, { code := 404, errorField := some "Job not found" }, []⟩ ∧
    downloadEndpoint reg jobId =
      ⟨reg, { code := 404, errorField := some "Job not found" }, []⟩ ∧
    cancelEndpoint reg jobId =
      ⟨reg, { code := 404, errorField := some "Job not found" }, []⟩ ∧
    saveEndpoint reg jobId (some dest) outputFileExists =
      ⟨reg, { code := 404, errorField := some "Job not found" }, []⟩ := by
  refine ⟨?_, ?_, ?_, ?_⟩ <;>
    simp [statusEndpoint, downloadEndpoint, cancelEndpoint, saveEndpoint, habsent]

/-- Witness for `unknown_job_not_found`: id `job-9` against the registry
holding only `job-1`. -/
theorem unknown_job_not_found_witness :
    statusEndpoint regCompleted "job-9" =
      ⟨regCompleted, { code := 404, errorField := some "Job not found" }, []⟩ ∧
    downloadEndpoint regCompleted "job-9" =
      ⟨regCompleted, { code := 404, errorField := some "Job not found" }, []⟩ ∧
    cancelEndpoint regCompleted "job-9" =
      ⟨regCompleted, { code := 404, errorField := some "Job not found" }, []⟩ ∧
    saveEndpoint regCompleted "job-9" (some "final.mp4") true =
      ⟨regCompleted, { code := 404, errorField := some "Job not found" }, []⟩ :=
  unknown_job_not_found regCompleted "job-9" "final.mp4" true (by decide)

/-- Overwriting a present entry is observable through `getJob`. -/
theorem getJob_setJob_self (reg : Registry) (jobId : String) (j j₀ : RenderJob)
    (h : getJob reg jobId = some j₀) : getJob (setJob reg jobId j) jobId = some j := by
  induction reg with
  | nil => simp [getJob, List.lookup] at h
  | cons hd tl ih =>
    obtain ⟨a, b⟩ := hd
    by_cases ha : a = jobId
    · subst ha
      simp [getJob, setJob, List.lookup]
    · have hba : (jobId == a) = false := by
        simp only [beq_eq_false_iff_ne, ne_eq]
        exact fun hc => ha hc.symm
      simp only [getJob, setJob, if_neg ha, List.lookup, hba] at h ⊢
      exact ih h

/-- Claim C2, as stated, is false on the in-progress job `job-2`: after the
cancel takes effect (status is `cancelled`), a later `updateProgress` call
of the still-running pipeline emits a further progress event for the same
job id, and the completion step then overwrites the status to `completed`,
so the status does not remain `Cancelled` either. -/
theorem cancel_midrender_claim_false :
    (getJob (cancelEndpoint regRendering "job-2").registry "job-2").map RenderJob.status
      = some .cancelled ∧
    (updateProgressStep (cancelEndpoint regRendering "job-2").registry
        "job-2" 40 "extraction").2
      = [{ jobId := "job-2", progress := some 40, phase := some "extraction" }] ∧
    (getJob (completeStep (updateProgressStep (cancelEndpoint regRendering "job-2").registry
          "job-2" 40 "extraction").1 "job-2" "output-full-hd.mp4").1 "job-2").map
        RenderJob.status
      = some .completed := by
  decide

/-- Claim C2 (amended): cancelling a job while it renders immediately sets
its status to `cancelled`, resets its progress to 0 and emits one
cancellation event — but the pipeline is not stopped: a progress update
arriving after the cancel still overwrites progress and phase and emits a
further progress event for that job id (the status itself staying
`cancelled` until the pipeline ends), and the completion step then
overwrites the status to `completed`. -/
theorem cancel_midrender_not_quiesced (reg : Registry) (jobId : String) (job : RenderJob)
    (p : ℤ) (ph : String) (out : String)
    (hget : getJob reg jobId = some job) (hren : job.status = .rendering) :
    (cancelEndpoint reg jobId).events
      = [{ jobId := jobId, progress := some 0, phase := some "cancelled",
           status := some "cancelled" }] ∧
    getJob (cancelEndpoint reg jobId).registry jobId
      = some { job with status := .cancelled, progress := 0 } ∧
    (updateProgressStep (cancelEndpoint reg jobId).registry jobId p ph).2
      = [{ jobId := jobId, progress := some p, phase := some ph }] ∧
    getJob (updateProgressStep (cancelEndpoint reg jobId).registry jobId p ph).1 jobId
      = some { job with status := .cancelled, progress := p, phase := ph } ∧
    getJob (completeStep
        (updateProgressStep (cancelEndpoint reg jobId).registry jobId p ph).1
        jobId out).1 jobId
      = some { job with
               status := .completed, progress := 100, phase := "completed",
               outputPath := some out } := by
  have hcancel : cancelEndpoint reg jobId =
      ⟨setJob reg jobId { job with status := .cancelled, progress := 0 },
       { code := 200, statusField := some "cancelled" },
       [{ jobId := jobId, progress := some 0, phase := some "cancelled",
          status := some "cancelled" }]⟩ := by
    simp [cancelEndpoint, hget, hren]
  have h1 : getJob (cancelEndpoint reg jobId).registry jobId
      = some { job with status := .cancelled, progress := 0 } := by
    rw [hcancel]
    exact getJob_setJob_self reg jobId _ job hget
  have h2 : updateProgressStep (cancelEndpoint reg jobId).registry jobId p ph
      = (setJob (cancelEndpoint reg jobId).registry jobId
           { job with
             status := .cancelled, progress := p, phase := ph },
         [{ jobId := jobId, progress := some p, phase := some ph }]) := by
    simp [updateProgressStep, h1]
  have h3 : getJob (updateProgressStep (cancelEndpoint reg jobId).registry jobId p ph).1 jobId
      = some { job with status := .cancelled, progress := p, phase := ph } := by
    rw [h2]
    exact getJob_setJob_self _ jobId _ _ h1
  refine ⟨by rw [hcancel], h1, by rw [h2], h3, ?_⟩
  have h4 : completeStep
      (updateProgressStep (cancelEndpoint reg jobId).registry jobId p ph).1 jobId out
      = (setJob (updateProgressStep (cancelEndpoint reg jobId).registry jobId p ph).1 jobId
           { job with
             status := .completed, progress := 100, phase := "completed",
             outputPath := some out },
         [{ jobId := jobId, progress := some 100, phase := some "completed",
            outputPath := some out }]) := by
    simp [completeStep, h3]
  rw [h4]
  exact getJob_setJob_self _ jobId _ _ h3

/-- Witness for `cancel_midrender_not_quiesced` on the rendering job
`job-2`. -/
theorem cancel_midrender_not_quiesced_witness :
    (cancelEndpoint regRendering "job-2").events
      = [{ jobId := "job-2", progress := some 0, phase := some "cancelled",
           status := some "cancelled" }] ∧
    getJob (cancelEndpoint regRendering "job-2").registry "job-2"
      = some { jobRendering with status := .cancelled, progress := 0 } ∧
    (updateProgressStep (cancelEndpoint regRendering "job-2").registry
        "job-2" 41 "extraction").2
      = [{ jobId := "job-2", progress := some 41, phase := some "extraction" }] ∧
    getJob (updateProgressStep (cancelEndpoint regRendering "job-2").registry
        "job-2" 41 "extraction").1 "job-2"
      = some { jobRendering with
               status := .cancelled, progress := 41,
               phase := "extraction" } ∧
    getJob (completeStep
        (updateProgressStep (cancelEndpoint regRendering "job-2").registry
          "job-2" 41 "extraction").1
        "job-2" "final.mp4").1 "job-2"
      = some { jobRendering with
               status := .completed, progress := 100,
               phase := "completed", outputPath := some "final.mp4" } :=
  cancel_midrender_not_quiesced regRendering "job-2" jobRendering 41 "extraction"
    "final.mp4" (by decide) rfl

/-! ## Claims about frame extraction -/

/-- Claim C3, as stated, is false: with no explicit timeline duration and a
single item whose display end time is 0, the spec precedence (maximum
display end-time across items) yields duration 0 and frame count 0, but
the code keeps `design.duration` (5000 ms) because the computed maximum is
not positive, yielding 150 frames at 30 fps. -/
theorem duration_precedence_claim_false :
    durationInFrames designZeroEnd 30 = 150 ∧
    specDurationInFrames designZeroEnd 30 = 0 ∧
    durationInFrames designZeroEnd 30 ≠ specDurationInFrames designZeroEnd 30 := by
  have h1 : durationInFrames designZeroEnd 30 = 150 := by
    have : resolveTimelineDuration designZeroEnd = 5000 := by
      norm_num [resolveTimelineDuration, fallbackTimelineDuration, maxEndTime,
        jsMaxList, jsOrQ, designZeroEnd]
    rw [durationInFrames, this, jsCeil]
    norm_num
  have h2 : specDurationInFrames designZeroEnd 30 = 0 := by
    have : specResolveDuration designZeroEnd = 0 := by
      norm_num [specResolveDuration, maxEndTime, jsMaxList, jsOrQ, designZeroEnd]
    rw [specDurationInFrames, this, jsCeil]
    norm_num
  exact ⟨h1, h2, by rw [h1, h2]; decide⟩

/-- The track-item fallback of `extractFrames` equals the amended wording:
the maximum display end-time when the composition has items and that
maximum is positive, the composition-level duration otherwise. -/
theorem fallbackTimelineDuration_eq (design : Design) :
    fallbackTimelineDuration design = amendedFallbackDuration design := by
  unfold fallbackTimelineDuration amendedFallbackDuration
  by_cases hne : design.trackItems = []
  · simp [hne]
  · by_cases hpos : maxEndTime design.trackItems > 0
    · by_cases heq : maxEndTime design.trackItems = design.duration
      · simp [hne, hpos, heq]
      · simp [hne, hpos, heq]
    · simp [hne, hpos]

/-- Claim C3 (amended): the derived timeline duration follows the
precedence — an explicitly supplied **positive** timeline duration
overrides everything; otherwise the maximum display end-time across the
composition items **when that maximum is positive**; otherwise the
composition-level default duration — and the total frame count equals
`ceil(duration_ms / 1000 × fps)` of the derived duration. -/
theorem duration_precedence_amended (design : Design) (fps : ℚ) :
    resolveTimelineDuration design = amendedResolveDuration design ∧
    durationInFrames design fps = jsCeil (amendedResolveDuration design / 1000 * fps) := by
  have h : resolveTimelineDuration design = amendedResolveDuration design := by
    unfold resolveTimelineDuration amendedResolveDuration
    cases htd : design.timelineDuration with
    | none => exact fallbackTimelineDuration_eq design
    | some td =>
      by_cases hpos : td > 0
      · simp [hpos, ne_of_gt hpos]
      · simp [hpos, fallbackTimelineDuration_eq design]
  exact ⟨h, by rw [durationInFrames, h]⟩

/-- Claim C4, as stated, is false: at 3840×100 with constrained memory the
code picks batch size 10, because each dimension triggers the 4K class on
its own (`width >= 3840 || height >= 2160`), while the spec table with
4K = resolution ≥ 3840×2160 assigns the `other` class and batch size 20. -/
theorem batch_size_claim_false :
    batchSize true 3840 100 = 10 ∧
    batchTable true (specResClass 3840 100) = 20 ∧
    batchSize true 3840 100 ≠ batchTable true (specResClass 3840 100) := by
  norm_num [batchSize, specResClass, batchTable]

/-- Claim C4 (amended): the extraction batch size equals the lookup keyed
by (`isMemoryConstrained`, resolution class) — constrained+4K→10,
constrained+1080p→15, constrained+other→20, unconstrained+4K→20,
unconstrained+1080p→30, unconstrained+other→60 — where the 4K class means
width ≥ 3840 **or** height ≥ 2160 and the 1080p class means width ≥ 1920
or height ≥ 1080; in particular 3840×2160 with constrained memory yields
batch size 10. -/
theorem batch_size_amended (isMemoryConstrained : Bool) (width height : ℚ) :
    batchSize isMemoryConstrained width height
      = batchTable isMemoryConstrained (codeResClass width height) ∧
    batchSize true 3840 2160 = 10 := by
  constructor
  · cases isMemoryConstrained <;>
      simp only [batchSize, codeResClass] <;> split_ifs <;> simp_all [batchTable]
  · norm_num [batchSize]

/-- Claim C5, as stated, is false: at 1920×1080 with unconstrained memory
but quality label `4K (2160p)`, the code selects two-pass encoding (the
`quality.includes('4K')` disjunct of `isHighRes`), while the spec rule —
resolution ≥ 3840×2160 or constrained memory — selects single-pass. -/
theorem two_pass_claim_false :
    useTwoPass 1920 1080 "4K (2160p)" false = true ∧
    ¬ specTwoPass 1920 1080 false := by
  constructor
  · rfl
  · simp only [specTwoPass]
    norm_num

/-- Claim C5 (amended): two-pass encoding is selected if and only if the
render counts as high-resolution — width ≥ 3840, or height ≥ 2160, or the
quality label contains `4K` — or memory is constrained; in every other
case a single-pass plan is produced. -/
theorem two_pass_amended (width height : ℚ) (quality : String)
    (isMemoryConstrained : Bool) :
    useTwoPass width height quality isMemoryConstrained = true ↔
      (width ≥ 3840 ∨ height ≥ 2160 ∨ jsIncludes quality "4K" = true ∨
        isMemoryConstrained = true) := by
  simp [useTwoPass, isHighRes, Bool.or_eq_true, decide_eq_true_iff, or_assoc]

/-! ## Claims about the audio mixing graph -/

/-- `generateAudioMixing` on a singleton track list: one padded chain
labelled `audio`, no mix node. -/
theorem generateAudioMixing_single (t : AudioTrackDesc) (td : ℚ) :
    generateAudioMixing [t] td =
      { inputPaths := [audioLocalPath 0 t],
        chains := [{ inputIndex := 1, adelayMs := jsRound (chainTrackStart t),
                     atempo := t.playbackRate, volume := t.volume,
                     atrimEnd := chainTrackDuration t td,
                     apadWholeDur := some (td / 1000), outLabel := "audio" }],
        mix := none } := by
  rfl

/-- `generateAudioMixing` on two or more tracks produces the `amix` node
with `inputs` equal to the track count. -/
theorem generateAudioMixing_mix_of_two_le (ts : List AudioTrackDesc) (td : ℚ)
    (h : 2 ≤ ts.length) :
    (generateAudioMixing ts td).mix = some ⟨ts.length, td / 1000⟩ := by
  have hne : ts.length ≠ 1 := by omega
  simp [generateAudioMixing, hne]

/-- Claim C6: with 0 audio tracks the plan is the silent-source path; with
exactly 1 audio track the filter graph is a single chain (delay,
playback-rate, volume, trim, pad — the `AudioChain` fields) and no mix
node; with n ≥ 2 audio tracks the graph has a mix node with `inputs = n`. -/
theorem audio_plan_by_track_count (design : Design) (totalDuration : ℚ) :
    ((extractAudioTracks design).length = 0 →
      processAudioTracks design totalDuration = .silent) ∧
    ((extractAudioTracks design).length = 1 →
      ∃ c : AudioChain,
        (processAudioTracks design totalDuration).chainList = [c] ∧
        c.apadWholeDur = some (totalDuration / 1000) ∧
        (processAudioTracks design totalDuration).mixNode = none) ∧
    (2 ≤ (extractAudioTracks design).length →
      (processAudioTracks design totalDuration).mixNode
        = some ⟨(extractAudioTracks design).length, totalDuration / 1000⟩) := by
  refine ⟨?_, ?_, ?_⟩
  · intro h0
    have h : extractAudioTracks design = [] := List.length_eq_zero.mp h0
    simp [processAudioTracks, h]
  · intro h1
    obtain ⟨t, ht⟩ := List.length_eq_one.mp h1
    refine ⟨{ inputIndex := 1, adelayMs := jsRound (chainTrackStart t),
              atempo := t.playbackRate, volume := t.volume,
              atrimEnd := chainTrackDuration t totalDuration,
              apadWholeDur := some (totalDuration / 1000), outLabel := "audio" },
            ?_, rfl, ?_⟩
    · simp [processAudioTracks, ht, AudioPlan.chainList, generateAudioMixing]
    · simp [processAudioTracks, ht, AudioPlan.mixNode, generateAudioMixing]
  · intro h2
    have hne : ¬(extractAudioTracks design).isEmpty := by
      rcases hx : extractAudioTracks design with _ | _
      · rw [hx] at h2; simp at h2
      · simp
    have hlen : (extractAudioTracks design).length ≠ 1 := by omega
    simp [processAudioTracks, hne, AudioPlan.mixNode, generateAudioMixing, hlen]

/-- Witness for `audio_plan_by_track_count` on the two-audio-track
composition. -/
theorem audio_plan_by_track_count_witness :
    (processAudioTracks designTwoAudio 8000).mixNode
      = some ⟨(extractAudioTracks designTwoAudio).length, (8000 : ℚ) / 1000⟩ :=
  (audio_plan_by_track_count designTwoAudio 8000).2.2 (by decide)

/-- Claim C7 is contradicted by the code (the claim matches the intent of
`extractAudioTracks`, which carefully computes `duration` as display end
minus display start, but `generateAudioMixing` then reads
`track.display?.to` — a field the descriptor does not have — so its trim
duration always falls back to the total duration): on the single windowed
track (display 1000–3000 ms, total duration 10000 ms) the generated chain
trims to 9 s where the claimed playable duration is 2 s. -/
theorem trim_duration_ignores_display_window :
    ∃ c : AudioChain,
      (processAudioTracks designOneAudio 10000).chainList = [c] ∧
      c.atrimEnd = 9 ∧
      specTrimDuration audioItemWindowed 10000 = 2 ∧
      c.atrimEnd ≠ specTrimDuration audioItemWindowed 10000 := by
  have hx : extractAudioTracks designOneAudio
      = [{ id := "a1", src := "http://media.local/song.mp3", name := "Audio 1",
           startTime := 1, duration := 2, trimStart := 0, trimEnd := 120,
           volume := 4/5, playbackRate := 1 }] := by
    have hs : (decide ("http://media.local/song.mp3" = "")) = false := by rfl
    have hn : "Audio " ++ toString (0 + 1) = "Audio 1" := by rfl
    simp only [extractAudioTracks, designOneAudio, audioItemWindowed]
    norm_num [isAudioItem, audioDescOf, jsOrQ, jsOrS, List.filter, List.enum, hs, hn]
  refine ⟨{ inputIndex := 1, adelayMs := 1000, atempo := 1, volume := 4/5,
            atrimEnd := 9, apadWholeDur := some 10, outLabel := "audio" },
          ?_, rfl, ?_, ?_⟩
  · simp only [processAudioTracks, hx, List.isEmpty_cons, Bool.false_eq_true,
      if_false, AudioPlan.chainList, generateAudioMixing_single]
    norm_num [AudioChain.mk.injEq, jsRound, chainTrackStart, chainTrackDuration,
      jsOrQ, AudioTrackDesc.displayTo, AudioTrackDesc.displayFrom]
  · norm_num [specTrimDuration, audioItemWindowed]
  · norm_num [specTrimDuration, audioItemWindowed]

/-! ## Claims about the encoder runner -/

/-- Claim C8, as stated, is false: with exit code 0 but a zero-byte output
file, `encodeVideo` throws the fixed message
`Output file has zero size, encoding failed`, which does not carry the
tail of the diagnostic output (here `Bq7`). -/
theorem encode_error_tail_claim_false :
    encodeVideoOutcome none ⟨0, "Bq7"⟩ 0
      = .error "Output file has zero size, encoding failed" ∧
    charsInfix (jsSliceLast "Bq7" 500).data
      "Output file has zero size, encoding failed".data = false := by
  constructor
  · rfl
  · decide

/-- Claim C8 (amended): once the prior pass (if any) succeeded, the main
encoder run yields success on exit code 0 with a non-zero output size;
a non-zero exit code yields the error whose message carries the last at
most 500 characters of the diagnostic output as a contiguous fragment;
and a zero-byte output with exit code 0 yields the fixed
`Output file has zero size, encoding failed` message, with no diagnostic
tail. -/
theorem encode_outcome_amended (firstPass : Option ProcessRun) (mainPass : ProcessRun)
    (outputSize : ℕ)
    (hfirst : ∀ r, firstPass = some r → r.exitCode = 0) :
    (mainPass.exitCode = 0 ∧ outputSize ≠ 0 →
      encodeVideoOutcome firstPass mainPass outputSize = .ok outputSize) ∧
    (mainPass.exitCode ≠ 0 →
      encodeVideoOutcome firstPass mainPass outputSize
        = .error (ffmpegFailureMessage mainPass) ∧
      (jsSliceLast mainPass.errorOutput 500).data <:+: (ffmpegFailureMessage mainPass).data ∧
      (jsSliceLast mainPass.errorOutput 500).length ≤ 500 ∧
      (jsSliceLast mainPass.errorOutput 500).data <:+ mainPass.errorOutput.data) ∧
    (mainPass.exitCode = 0 ∧ outputSize = 0 →
      encodeVideoOutcome firstPass mainPass outputSize
        = .error "Output file has zero size, encoding failed") := by
  have hrunFirst : ∀ r, firstPass = some r → runFFmpegProcess r = .ok () := by
    intro r hr
    simp [runFFmpegProcess, hfirst r hr]
  have houtcome : encodeVideoOutcome firstPass mainPass outputSize
      = (match runFFmpegProcess mainPass with
         | .error e => .error e
         | .ok _ =>
           if outputSize = 0 then .error "Output file has zero size, encoding failed"
           else .ok outputSize) := by
    cases hfp : firstPass with
    | none => rfl
    | some r => simp [encodeVideoOutcome, hrunFirst r hfp]
  refine ⟨?_, ?_, ?_⟩
  · rintro ⟨hc, hs⟩
    simp [houtcome, runFFmpegProcess, hc, hs]
  · intro hc
    refine ⟨by simp [houtcome, runFFmpegProcess, hc], ?_, ?_, ?_⟩
    · refine ⟨("FFmpeg process exited with code " ++ toString mainPass.exitCode
          ++ ". Error: ").data, [], ?_⟩
      simp only [ffmpegFailureMessage, String.data_append, List.append_assoc,
        List.append_nil]
    · have hlen : ∀ (s : String) (n : ℕ),
          (jsSliceLast s n).length = (s.data.drop (s.data.length - n)).length :=
        fun _ _ => rfl
      rw [hlen, List.length_drop]
      omega
    · have hdata : ∀ (s : String) (n : ℕ),
          (jsSliceLast s n).data = s.data.drop (s.data.length - n) :=
        fun _ _ => rfl
      rw [hdata]
      exact List.drop_suffix _ _
  · rintro ⟨hc, hs⟩
    subst hs
    simp [houtcome, runFFmpegProcess, hc]

/-- Witness for `encode_outcome_amended`: a single-pass run exiting with
code 1 and diagnostics `xyz`. -/
theorem encode_outcome_amended_witness :
    encodeVideoOutcome none ⟨1, "xyz"⟩ 5 = .error (ffmpegFailureMessage ⟨1, "xyz"⟩) ∧
    (jsSliceLast "xyz" 500).data <:+: (ffmpegFailureMessage ⟨1, "xyz"⟩).data ∧
    (jsSliceLast "xyz" 500).length ≤ 500 ∧
    (jsSliceLast "xyz" 500).data <:+ "xyz".data :=
  (encode_outcome_amended none ⟨1, "xyz"⟩ 5 (by simp)).2.1 (by decide)

/-! ## The progress-monotonicity claim -/

/-- An element of `getLast?` is an element of the list. -/
theorem mem_of_getLastOpt {α : Type} {l : List α} {x : α} (h : x ∈ l.getLast?) :
    x ∈ l := by
  obtain ⟨hne, hx⟩ := List.mem_getLast?_eq_getLast h
  exact hx ▸ List.getLast_mem hne

/-- Two non-decreasing lists concatenate to a non-decreasing list when a
constant separates them. -/
theorem chainLe_append_of_bounds {l₁ l₂ : List ℤ} (c : ℤ)
    (h₁ : List.Chain' (· ≤ ·) l₁) (h₂ : List.Chain' (· ≤ ·) l₂)
    (hb₁ : ∀ x ∈ l₁, x ≤ c) (hb₂ : ∀ y ∈ l₂, c ≤ y) :
    List.Chain' (· ≤ ·) (l₁ ++ l₂) := by
  rw [List.chain'_append]
  refine ⟨h₁, h₂, fun x hx y hy => ?_⟩
  exact le_trans (hb₁ x (mem_of_getLastOpt hx)) (hb₂ y (List.mem_of_mem_head? hy))

/-- Prepending a lower bound to a non-decreasing list. -/
theorem chainLe_cons_of_bounds (a : ℤ) {l : List ℤ}
    (h : List.Chain' (· ≤ ·) l) (hb : ∀ x ∈ l, a ≤ x) :
    List.Chain' (· ≤ ·) (a :: l) := by
  rw [List.chain'_cons']
  exact ⟨fun y hy => hb y (List.mem_of_mem_head? hy), h⟩

/-- A monotone map preserves non-decreasing lists. -/
theorem chainLe_map {α : Type} [Preorder α] (f : α → ℤ) (hf : Monotone f)
    {l : List α} (h : List.Chain' (· ≤ ·) l) :
    List.Chain' (· ≤ ·) (l.map f) := by
  rw [List.chain'_map]
  exact h.imp (fun a b hab => hf hab)

/-- Extraction progress values are non-negative. -/
theorem extractionEvent_nonneg (totalFrames frame : ℕ) :
    0 ≤ extractionEvent totalFrames frame := by
  rw [extractionEvent, jsFloor]
  exact Int.floor_nonneg.mpr (by positivity)

/-- Extraction progress values stay at or below 50. -/
theorem extractionEvent_le_fifty (totalFrames frame : ℕ) (hN : totalFrames ≠ 0)
    (hf : frame ≤ totalFrames) : extractionEvent totalFrames frame ≤ 50 := by
  rw [extractionEvent, jsFloor]
  have hN' : (0 : ℚ) < (totalFrames : ℚ) := by
    exact_mod_cast Nat.pos_of_ne_zero hN
  have hdiv : (frame : ℚ) / (totalFrames : ℚ) ≤ 1 := by
    rw [div_le_one hN']
    exact_mod_cast hf
  have hle : (frame : ℚ) / (totalFrames : ℚ) * 100 * (1/2) ≤ 50 := by nlinarith
  calc ⌊(frame : ℚ) / (totalFrames : ℚ) * 100 * (1/2)⌋ ≤ ⌊(50 : ℚ)⌋ :=
        Int.floor_mono hle
    _ = 50 := by norm_num

/-- Extraction progress is monotone in the frame counter. -/
theorem extractionEvent_mono (totalFrames : ℕ) :
    Monotone (extractionEvent totalFrames) := by
  intro a b hab
  apply Int.floor_mono
  have h : (a : ℚ) ≤ (b : ℚ) := by exact_mod_cast hab
  gcongr

/-- An encoder progress value never falls below the sub-range start. -/
theorem passEvent_lower {pStart pEnd : ℤ} (_hs : 0 ≤ pStart) (hse : pStart ≤ pEnd)
    (d t : ℕ) : pStart ≤ passEvent pStart pEnd d t := by
  rw [passEvent]
  refine le_min ?_ hse
  rw [jsRound]
  refine Int.le_floor.mpr ?_
  have h1 : 0 ≤ (t : ℚ) / (d : ℚ) := by positivity
  have h2 : (0 : ℚ) ≤ (pEnd : ℤ) - (pStart : ℤ) := by
    rw [sub_nonneg]
    exact_mod_cast hse
  push_cast at h2
  nlinarith

/-- An encoder progress value never exceeds the sub-range end. -/
theorem passEvent_upper (pStart pEnd : ℤ) (d t : ℕ) :
    passEvent pStart pEnd d t ≤ pEnd :=
  min_le_right _ _

/-- Encoder progress is monotone in the parsed elapsed time. -/
theorem passEvent_mono {pStart pEnd : ℤ} (hse : pStart ≤ pEnd) (d : ℕ) :
    Monotone (passEvent pStart pEnd d) := by
  intro a b hab
  unfold passEvent
  refine min_le_min ?_ le_rfl
  apply Int.floor_mono
  have hdiv : (a : ℚ) / (d : ℚ) ≤ (b : ℚ) / (d : ℚ) := by
    rcases Nat.eq_zero_or_pos d with hd | hd
    · subst hd
      simp
    · have ha : (a : ℚ) ≤ (b : ℚ) := by exact_mod_cast hab
      have hd' : (0 : ℚ) < (d : ℚ) := by exact_mod_cast hd
      gcongr
  have h2 : (0 : ℚ) ≤ (pEnd : ℚ) - (pStart : ℚ) := by
    rw [sub_nonneg]
    exact_mod_cast hse
  nlinarith

/-- All values reported by one encoder pass lie in its sub-range. -/
theorem passEvents_bounds {pStart pEnd : ℤ} (hs : 0 ≤ pStart) (hse : pStart ≤ pEnd)
    (d : ℕ) (ts : List ℕ) :
    ∀ x ∈ passEvents pStart pEnd d ts, pStart ≤ x ∧ x ≤ pEnd := by
  intro x hx
  rw [passEvents] at hx
  split_ifs at hx with hd
  · simp at hx
  · obtain ⟨t, _, rfl⟩ := List.mem_map.mp hx
    exact ⟨passEvent_lower hs hse d t, passEvent_upper pStart pEnd d t⟩

/-- One encoder pass reports a non-decreasing value sequence when the
parsed times are non-decreasing. -/
theorem passEvents_chain {pStart pEnd : ℤ} (hse : pStart ≤ pEnd) (d : ℕ)
    {ts : List ℕ} (hts : List.Chain' (· ≤ ·) ts) :
    List.Chain' (· ≤ ·) (passEvents pStart pEnd d ts) := by
  rw [passEvents]
  split_ifs with hd
  · exact List.chain'_nil
  · exact chainLe_map _ (passEvent_mono hse d) hts

/-- All encoder progress values of `encodeVideo` lie in `[0, 100]`. -/
theorem encodingEvents_bounds (twoPass : Bool) (dFirst : ℕ) (tsFirst : List ℕ)
    (dMain : ℕ) (tsMain : List ℕ) :
    ∀ x ∈ encodingEvents twoPass dFirst tsFirst dMain tsMain, 0 ≤ x ∧ x ≤ 100 := by
  intro x hx
  cases twoPass with
  | false =>
    rw [encodingEvents] at hx
    simp only [Bool.false_eq_true, if_false] at hx
    exact passEvents_bounds (by norm_num) (by norm_num) dMain tsMain x hx
  | true =>
    rw [encodingEvents] at hx
    simp only [if_true] at hx
    rcases List.mem_append.mp hx with h | h
    · have := @passEvents_bounds 0 45 (by norm_num) (by norm_num)
        dFirst tsFirst x h
      omega
    · have := @passEvents_bounds 45 100 (by norm_num) (by norm_num)
        dMain tsMain x h
      omega

/-- The encoder progress sequence of `encodeVideo` is non-decreasing when
each pass's parsed times are non-decreasing. -/
theorem encodingEvents_chain (twoPass : Bool) (dFirst : ℕ) {tsFirst : List ℕ}
    (dMain : ℕ) {tsMain : List ℕ}
    (h1 : List.Chain' (· ≤ ·) tsFirst) (hM : List.Chain' (· ≤ ·) tsMain) :
    List.Chain' (· ≤ ·) (encodingEvents twoPass dFirst tsFirst dMain tsMain) := by
  cases twoPass with
  | false =>
    rw [encodingEvents]
    simp only [Bool.false_eq_true, if_false]
    exact passEvents_chain (by norm_num) dMain hM
  | true =>
    rw [encodingEvents]
    simp only [if_true]
    refine chainLe_append_of_bounds 45 (passEvents_chain (by norm_num) dFirst h1)
      (passEvents_chain (by norm_num) dMain hM) ?_ ?_
    · intro x hx
      exact (@passEvents_bounds 0 45 (by norm_num) (by norm_num)
        dFirst tsFirst x hx).2
    · intro y hy
      exact (@passEvents_bounds 45 100 (by norm_num) (by norm_num)
        dMain tsMain y hy).1

/-- The `50 + Math.floor(e * 0.5)` mapping is monotone. -/
theorem encodingMapped_mono : Monotone encodingMapped := by
  intro a b hab
  unfold encodingMapped jsFloor
  have h : (a : ℚ) * (1/2) ≤ (b : ℚ) * (1/2) := by
    have : (a : ℚ) ≤ (b : ℚ) := by exact_mod_cast hab
    nlinarith
  have := Int.floor_mono h
  omega

/-- The `50 + Math.floor(e * 0.5)` mapping sends `[0, 100]` into `[50, 100]`. -/
theorem encodingMapped_bounds {e : ℤ} (h0 : 0 ≤ e) (h100 : e ≤ 100) :
    50 ≤ encodingMapped e ∧ encodingMapped e ≤ 100 := by
  unfold encodingMapped jsFloor
  constructor
  · have : (0 : ℤ) ≤ ⌊(e : ℚ) * (1/2)⌋ := by
      refine Int.floor_nonneg.mpr ?_
      have : (0 : ℚ) ≤ (e : ℚ) := by exact_mod_cast h0
      nlinarith
    omega
  · have hle : (e : ℚ) * (1/2) ≤ 50 := by
      have : (e : ℚ) ≤ 100 := by exact_mod_cast h100
      nlinarith
    have : ⌊(e : ℚ) * (1/2)⌋ ≤ ⌊(50 : ℚ)⌋ := Int.floor_mono hle
    have h50 : ⌊(50 : ℚ)⌋ = 50 := by norm_num
    omega

/-- Claim C9: during an (uncancelled) active run, every overall progress
value emitted — and stored in `job.progress`, hence seen by consecutive
status reads — lies in `[0, 100]`, and the sequence is monotone
non-decreasing, assuming the renderer reports a non-decreasing frame
counter bounded by the total frame count and the encoder reports
non-decreasing `time=` values within each pass. -/
theorem progress_events_monotone_bounded (totalFrames : ℕ) (frames : List ℕ)
    (twoPass : Bool) (dFirst : ℕ) (tsFirst : List ℕ) (dMain : ℕ) (tsMain : List ℕ)
    (hN : totalFrames ≠ 0)
    (hframesMono : List.Chain' (· ≤ ·) frames)
    (hframesLe : ∀ f ∈ frames, f ≤ totalFrames)
    (hts1 : List.Chain' (· ≤ ·) tsFirst)
    (htsM : List.Chain' (· ≤ ·) tsMain) :
    List.Chain' (· ≤ ·)
      (renderProgressTrace totalFrames frames twoPass dFirst tsFirst dMain tsMain) ∧
    ∀ x ∈ renderProgressTrace totalFrames frames twoPass dFirst tsFirst dMain tsMain,
      0 ≤ x ∧ x ≤ 100 := by
  have hAbounds : ∀ x ∈ frames.map (extractionEvent totalFrames), 0 ≤ x ∧ x ≤ 50 := by
    intro x hx
    obtain ⟨f, hf, rfl⟩ := List.mem_map.mp hx
    exact ⟨extractionEvent_nonneg totalFrames f,
      extractionEvent_le_fifty totalFrames f hN (hframesLe f hf)⟩
  have hCbounds : ∀ x ∈ (encodingEvents twoPass dFirst tsFirst dMain tsMain).map
      encodingMapped, 50 ≤ x ∧ x ≤ 100 := by
    intro x hx
    obtain ⟨e, he, rfl⟩ := List.mem_map.mp hx
    obtain ⟨h0, h100⟩ := encodingEvents_bounds twoPass dFirst tsFirst dMain tsMain e he
    exact encodingMapped_bounds h0 h100
  have hAchain : List.Chain' (· ≤ ·) (frames.map (extractionEvent totalFrames)) :=
    chainLe_map _ (extractionEvent_mono totalFrames) hframesMono
  have hCchain : List.Chain' (· ≤ ·)
      ((encodingEvents twoPass dFirst tsFirst dMain tsMain).map encodingMapped) :=
    chainLe_map _ encodingMapped_mono
      (encodingEvents_chain twoPass dFirst dMain hts1 htsM)
  have hC100 : List.Chain' (· ≤ ·)
      ((encodingEvents twoPass dFirst tsFirst dMain tsMain).map encodingMapped ++ [100]) :=
    chainLe_append_of_bounds 100 hCchain (List.chain'_singleton 100)
      (fun x hx => (hCbounds x hx).2) (by simp)
  have hB : List.Chain' (· ≤ ·) ((50 : ℤ) ::
      ((encodingEvents twoPass dFirst tsFirst dMain tsMain).map encodingMapped ++ [100])) := by
    refine chainLe_cons_of_bounds 50 hC100 ?_
    intro x hx
    rcases List.mem_append.mp hx with h | h
    · exact (hCbounds x h).1
    · simp at h
      omega
  have hAB : List.Chain' (· ≤ ·) (frames.map (extractionEvent totalFrames) ++ (50 : ℤ) ::
      ((encodingEvents twoPass dFirst tsFirst dMain tsMain).map encodingMapped ++ [100])) := by
    refine chainLe_append_of_bounds 50 hAchain hB (fun x hx => (hAbounds x hx).2) ?_
    intro y hy
    rcases List.mem_cons.mp hy with h | h
    · omega
    · rcases List.mem_append.mp h with h' | h'
      · exact (hCbounds y h').1.trans' (by norm_num)
      · simp at h'
        omega
  constructor
  · rw [renderProgressTrace]
    refine chainLe_cons_of_bounds 0 hAB ?_
    intro x hx
    rcases List.mem_append.mp hx with h | h
    · exact (hAbounds x h).1
    · rcases List.mem_cons.mp h with h' | h'
      · omega
      · rcases List.mem_append.mp h' with h'' | h''
        · exact le_trans (by norm_num) (hCbounds x h'').1
        · simp at h''
          omega
  · intro x hx
    rw [renderProgressTrace] at hx
    rcases List.mem_cons.mp hx with h | h
    · omega
    · rcases List.mem_append.mp h with h' | h'
      · have := hAbounds x h'
        omega
      · rcases List.mem_cons.mp h' with h'' | h''
        · omega
        · rcases List.mem_append.mp h'' with h3 | h3
          · have := hCbounds x h3
            omega
          · simp at h3
            omega

/-- Witness for `progress_events_monotone_bounded`: a two-frame extraction
followed by a two-pass encode. -/
theorem progress_events_monotone_bounded_witness :
    List.Chain' (· ≤ ·) (renderProgressTrace 2 [0, 1, 2] true 10 [2, 5] 10 [0, 10]) ∧
    ∀ x ∈ renderProgressTrace 2 [0, 1, 2] true 10 [2, 5] 10 [0, 10],
      0 ≤ x ∧ x ≤ 100 :=
  progress_events_monotone_bounded 2 [0, 1, 2] true 10 [2, 5] 10 [0, 10]
    (by decide) (by norm_num [List.chain'_cons]) (by decide)
    (by norm_num [List.chain'_cons]) (by norm_num [List.chain'_cons])

end RVE
